import Mathlib

/-!
Verification development for the Quezon City COVID-19 case-mapping pipeline
(`codes/utils.py`).  The pipeline is shallowly embedded: pandas DataFrames
become typed lists of records, `Except` models raised exceptions, and the
filesystem / HTTP collaborators become explicit function parameters.
-/

namespace QC

/-! ## Cells and numeric coercion (`pd.to_numeric` + `fillna(0)`) -/

/-- A cell of the extracted table: `none` models a missing value (NaN),
`some s` a string token extracted from the PDF. -/
abbrev Cell := Option String

/-- Numeric parsing of a single string token, modelling the success or
failure of `pd.to_numeric` on the integer count tokens appearing in these
tables: a non-empty all-digit token parses to its value, anything else
fails to parse. -/
def parseNum (s : String) : Option Nat :=
  if s.data ≠ [] ∧ s.data.all (fun c => c.isDigit) then
    some (s.data.foldl (fun a c => a * 10 + (c.toNat - 48)) 0)
  else none

/-- One row of the raw extracted case table: subdivision name plus the four
string-typed count cells (`Barangay`, `Active`, `Died`, `Recovered`, `Total`). -/
structure RawRecord where
  barangay : String
  active : Cell
  died : Cell
  recovered : Cell
  total : Cell
deriving Repr, DecidableEq

/-- One row after numeric coercion: `to_numeric` succeeded on every present
cell and `fillna(0)` replaced the missing ones. -/
structure CaseRecord where
  barangay : String
  active : Nat
  died : Nat
  recovered : Nat
  total : Nat
deriving Repr, DecidableEq

/-- `pd.to_numeric` on one cell with the default `errors='raise'`: a missing
value (NaN) passes through unchanged, a token that parses yields its value,
and a token that fails to parse raises. -/
def toNumericCell (c : Cell) : Except String (Option Nat) :=
  match c with
  | none => .ok none
  | some s =>
    match parseNum s with
    | some n => .ok (some n)
    | none => .error ("Unable to parse string " ++ s)

/-- `pd.to_numeric(column)` followed by `fillna(0)`: the whole column errors
at the first unparseable token, otherwise missing cells become `0`. -/
def toNumericColumn : List Cell → Except String (List Nat)
  | [] => .ok []
  | c :: cs =>
    match toNumericCell c with
    | .error e => .error e
    | .ok v =>
      match toNumericColumn cs with
      | .error e => .error e
      | .ok ns => .ok (v.getD 0 :: ns)

/-- Zip the coerced columns back together with the (already renamed)
subdivision names, rebuilding the record view of the DataFrame. -/
def zipRecords : List RawRecord → List Nat → List Nat → List Nat → List Nat → List CaseRecord
  | r :: rs, a :: as, d :: ds, c :: cs, t :: ts =>
    ⟨r.barangay, a, d, c, t⟩ :: zipRecords rs as ds cs ts
  | _, _, _, _, _ => []

/-- The `for feature in ['Active', 'Died', 'Recovered', 'Total']` loop of
`preprocess`: coerce the four count columns in order, erroring at the first
column containing an unparseable token. -/
def coerceTable (covid : List RawRecord) : Except String (List CaseRecord) :=
  match toNumericColumn (covid.map (fun r => r.active)) with
  | .error e => .error e
  | .ok as =>
    match toNumericColumn (covid.map (fun r => r.died)) with
    | .error e => .error e
    | .ok ds =>
      match toNumericColumn (covid.map (fun r => r.recovered)) with
      | .error e => .error e
      | .ok rs =>
        match toNumericColumn (covid.map (fun r => r.total)) with
        | .error e => .error e
        | .ok ts => .ok (zipRecords covid as ds rs ts)

/-! ## Name normalization (`covid_data.replace({'Barangay': rep})`) -/

/-- The hardcoded alias table `rep` of `preprocess`, copied verbatim
(the exotic hyphens and underscores are encoding artifacts of the source PDFs). -/
def rep : List (String × String) :=
  [("Bagong Pag‐Asa", "Bagong Pag-Asa"), ("Don_a Imelda", "Doña Imelda"),
   ("Don_a Josefa", "Doña Josefa"), ("Duyan‐Duyan", "Duyan-Duyan"),
   ("Pag‐Ibig Sa Nayon", "Pag-Ibig Sa Nayon"), ("Pasong Putik", "Pasong Putik Proper"),
   ("Phil‐Am", "Phil-Am"), ("Quirino 2‐A", "Quirino 2-A"), ("Quirino 2‐B", "Quirino 2-B"),
   ("Quirino 2‐C", "Quirino 2-C"), ("Quirino 3‐A", "Quirino 3-A"),
   ("San Isidro Galas", "San Isidro"), ("San Martin De Porres", "San Martin de Porres"),
   ("Santo Nin_o", "Santo Niño"), ("Siena", "Sienna")]

/-- Exact-value replacement of one `Barangay` cell through the alias table,
as `DataFrame.replace` does with a nested dict: a cell equal to a key becomes
its value, any other cell is left unchanged. -/
def applyRep (s : String) : String :=
  match rep.lookup s with
  | some c => c
  | none => s

/-- `covid_data.replace({'Barangay': rep})`: rename the `Barangay` column of
every raw record through the alias table. -/
def normalizeNames (covid : List RawRecord) : List RawRecord :=
  covid.map (fun r => { r with barangay := applyRep r.barangay })

/-! ## Boundary data and the left join -/

/-- One polygon feature of the boundary shapefile; `γ` is the geometry payload
(opaque to the pipeline except for the representative-point computation). -/
structure BoundaryFeature (γ : Type) where
  region : String
  name2 : String
  name3 : String
  geometry : γ
deriving Repr, DecidableEq

/-- One row of `qc_df` after filtering, representative-point computation and
the `Barangay` column assignment. -/
structure QcRow (γ : Type) where
  region : String
  name2 : String
  name3 : String
  geometry : γ
  coords : Int × Int
  barangay : String
deriving Repr, DecidableEq

/-- One row of the merged output table: the boundary columns plus the four
count columns, which are `none` (NaN) for boundary rows the left join could
not match. -/
structure JoinedRecord (γ : Type) where
  region : String
  name2 : String
  name3 : String
  geometry : γ
  coords : Int × Int
  barangay : String
  active : Option Nat
  died : Option Nat
  recovered : Option Nat
  total : Option Nat
deriving Repr, DecidableEq

/-- The boundary filter
`map_df[(map_df['REGION'] == 'Metropolitan Manila') & (map_df['NAME_2'] == 'Quezon City')]`. -/
def qcFilter {γ : Type} (map_df : List (BoundaryFeature γ)) : List (BoundaryFeature γ) :=
  map_df.filter (fun f => f.region == "Metropolitan Manila" && f.name2 == "Quezon City")

/-- The single hardcoded boundary-side alias
`qc_df.replace({'Barangay': {'Constitution Hills': 'Commonwealth'}})`. -/
def qcRename (s : String) : String :=
  if s == "Constitution Hills" then "Commonwealth" else s

/-- Build one `qc_df` row: compute `coords` from the geometry via the
representative-point function `rp`, copy `NAME_3` into `Barangay`, and apply
the boundary-side alias. -/
def mkQcRow {γ : Type} (rp : γ → Int × Int) (f : BoundaryFeature γ) : QcRow γ :=
  { region := f.region, name2 := f.name2, name3 := f.name3, geometry := f.geometry,
    coords := rp f.geometry, barangay := qcRename f.name3 }

/-- The joined row produced for a boundary row with no matching case record:
the count columns are NaN. -/
def unmatchedRow {γ : Type} (l : QcRow γ) : JoinedRecord γ :=
  { region := l.region, name2 := l.name2, name3 := l.name3, geometry := l.geometry,
    coords := l.coords, barangay := l.barangay,
    active := none, died := none, recovered := none, total := none }

/-- The joined row produced for a boundary row and one matching case record. -/
def matchedRow {γ : Type} (l : QcRow γ) (r : CaseRecord) : JoinedRecord γ :=
  { region := l.region, name2 := l.name2, name3 := l.name3, geometry := l.geometry,
    coords := l.coords, barangay := l.barangay,
    active := some r.active, died := some r.died, recovered := some r.recovered,
    total := some r.total }

/-- `qc_df.merge(covid_data, how='left', on='Barangay')`: left rows in order;
a left row with no key match yields one row with NaN counts, a left row with
matches yields one row per match, in right-table order. -/
def mergeLeft {γ : Type} : List (QcRow γ) → List CaseRecord → List (JoinedRecord γ)
  | [], _ => []
  | l :: ls, right =>
    (match right.filter (fun r => r.barangay == l.barangay) with
     | [] => [unmatchedRow l]
     | m :: ms => (m :: ms).map (matchedRow l)) ++ mergeLeft ls right

/-- The `preprocess` function of `codes/utils.py`: rename aliases, coerce the
four count columns (erroring on an unparseable token), filter the boundary
features to Metropolitan Manila / Quezon City, build the `qc_df` rows, and
left-join the case records onto them.  The boundary dataset is passed as the
already-loaded feature list and `rp` embeds
`geometry.representative_point().coords[0]`. -/
def preprocess {γ : Type} (covid_data : List RawRecord) (map_df : List (BoundaryFeature γ))
    (rp : γ → Int × Int) : Except String (List (JoinedRecord γ)) :=
  match coerceTable (normalizeNames covid_data) with
  | .error e => .error e
  | .ok cs => .ok (mergeLeft ((qcFilter map_df).map (mkQcRow rp)) cs)

/-! ## Characterizations of the coercion and the join -/

/-- Success of `pd.to_numeric` on one cell: missing cells and parseable
tokens are fine, an unparseable token raises. -/
def cellOk (c : Cell) : Bool :=
  match c with
  | none => true
  | some s => (parseNum s).isSome

/-- Value of one cell after `to_numeric` + `fillna(0)`: missing cells become
`0`, parseable tokens their numeric value. -/
def cellVal (c : Cell) : Nat :=
  match c with
  | none => 0
  | some s => (parseNum s).getD 0

/-- The coerced record a raw record yields when every cell is fine. -/
def coerceRecordVal (r : RawRecord) : CaseRecord :=
  ⟨r.barangay, cellVal r.active, cellVal r.died, cellVal r.recovered, cellVal r.total⟩

/-- All four count cells of a raw record survive `to_numeric`. -/
def recordOk (r : RawRecord) : Bool :=
  cellOk r.active && cellOk r.died && cellOk r.recovered && cellOk r.total

theorem toNumericColumn_ok_of : ∀ (cells : List Cell), (∀ c ∈ cells, cellOk c = true) →
    toNumericColumn cells = .ok (cells.map cellVal) := by
  intro cells
  induction cells with
  | nil => intro _; rfl
  | cons c cs ih =>
    intro h
    have hcs := ih (fun x hx => h x (List.mem_cons_of_mem _ hx))
    cases c with
    | none => simp [toNumericColumn, toNumericCell, hcs, cellVal]
    | some s =>
      have hc := h (some s) (List.mem_cons_self _ _)
      rw [cellOk] at hc
      rcases Option.isSome_iff_exists.mp hc with ⟨n, hp⟩
      simp [toNumericColumn, toNumericCell, hp, hcs, cellVal]

theorem toNumericColumn_ok_inv : ∀ (cells : List Cell) (ns : List Nat),
    toNumericColumn cells = .ok ns →
    ((∀ c ∈ cells, cellOk c = true) ∧ ns = cells.map cellVal) := by
  intro cells
  induction cells with
  | nil =>
    intro ns h
    refine ⟨by simp, ?_⟩
    have : Except.ok ([] : List Nat) = Except.ok ns := h
    simpa using this.symm
  | cons c cs ih =>
    intro ns h
    rw [toNumericColumn] at h
    cases c with
    | none =>
      rw [toNumericCell] at h
      cases h2 : toNumericColumn cs with
      | error e => rw [h2] at h; exact absurd h (by simp)
      | ok ns' =>
        rw [h2] at h
        have hns : ns = Option.getD none 0 :: ns' := by
          simpa using h.symm
        rcases ih ns' h2 with ⟨hall, rfl⟩
        refine ⟨?_, by simpa [cellVal] using hns⟩
        intro x hx
        rcases List.mem_cons.mp hx with rfl | hx'
        · rfl
        · exact hall x hx'
    | some s =>
      rw [toNumericCell] at h
      cases hp : parseNum s with
      | none => rw [hp] at h; exact absurd h (by simp)
      | some n =>
        rw [hp] at h
        cases h2 : toNumericColumn cs with
        | error e => rw [h2] at h; exact absurd h (by simp)
        | ok ns' =>
          rw [h2] at h
          have hns : ns = Option.getD (some n) 0 :: ns' := by
            simpa using h.symm
          rcases ih ns' h2 with ⟨hall, rfl⟩
          refine ⟨?_, by simpa [cellVal, hp] using hns⟩
          intro x hx
          rcases List.mem_cons.mp hx with rfl | hx'
          · simp [cellOk, hp]
          · exact hall x hx'

theorem toNumericColumn_ok_iff (cells : List Cell) (ns : List Nat) :
    toNumericColumn cells = .ok ns ↔ ((∀ c ∈ cells, cellOk c = true) ∧ ns = cells.map cellVal) :=
  ⟨toNumericColumn_ok_inv cells ns, fun ⟨h1, h2⟩ => h2 ▸ toNumericColumn_ok_of cells h1⟩

theorem zipRecords_map (covid : List RawRecord) :
    zipRecords covid ((covid.map (fun r => r.active)).map cellVal)
      ((covid.map (fun r => r.died)).map cellVal)
      ((covid.map (fun r => r.recovered)).map cellVal)
      ((covid.map (fun r => r.total)).map cellVal)
      = covid.map coerceRecordVal := by
  induction covid with
  | nil => rfl
  | cons r rs ih =>
    simp only [List.map_cons, zipRecords]
    rw [ih]
    rfl

theorem coerceTable_ok_iff (covid : List RawRecord) (cs : List CaseRecord) :
    coerceTable covid = .ok cs ↔ ((∀ r ∈ covid, recordOk r = true) ∧ cs = covid.map coerceRecordVal) := by
  have colOk : ∀ (f : RawRecord → Cell), (∀ r ∈ covid, cellOk (f r) = true) →
      toNumericColumn (covid.map f) = .ok ((covid.map f).map cellVal) := by
    intro f hf
    exact (toNumericColumn_ok_iff _ _).mpr ⟨by simpa using hf, rfl⟩
  constructor
  · intro h
    unfold coerceTable at h
    cases h1 : toNumericColumn (covid.map (fun r => r.active)) with
    | error e => rw [h1] at h; exact absurd h (by simp)
    | ok as =>
      rw [h1] at h
      cases h2 : toNumericColumn (covid.map (fun r => r.died)) with
      | error e => rw [h2] at h; exact absurd h (by simp)
      | ok ds =>
        rw [h2] at h
        cases h3 : toNumericColumn (covid.map (fun r => r.recovered)) with
        | error e => rw [h3] at h; exact absurd h (by simp)
        | ok rs =>
          rw [h3] at h
          cases h4 : toNumericColumn (covid.map (fun r => r.total)) with
          | error e => rw [h4] at h; exact absurd h (by simp)
          | ok ts =>
            rw [h4] at h
            have e1 := (toNumericColumn_ok_iff _ _).mp h1
            have e2 := (toNumericColumn_ok_iff _ _).mp h2
            have e3 := (toNumericColumn_ok_iff _ _).mp h3
            have e4 := (toNumericColumn_ok_iff _ _).mp h4
            have hcs : cs = zipRecords covid as ds rs ts := by simpa using h.symm
            refine ⟨?_, ?_⟩
            · intro r hr
              have a1 := e1.1 r.active (List.mem_map_of_mem (fun x => x.active) hr)
              have a2 := e2.1 r.died (List.mem_map_of_mem (fun x => x.died) hr)
              have a3 := e3.1 r.recovered (List.mem_map_of_mem (fun x => x.recovered) hr)
              have a4 := e4.1 r.total (List.mem_map_of_mem (fun x => x.total) hr)
              simp [recordOk, a1, a2, a3, a4]
            · rw [hcs, e1.2, e2.2, e3.2, e4.2, zipRecords_map]
  · rintro ⟨hall, rfl⟩
    have hcell : ∀ (f : RawRecord → Cell), (∀ r, recordOk r = true → cellOk (f r) = true) →
        ∀ r ∈ covid, cellOk (f r) = true := fun f hf r hr => hf r (hall r hr)
    unfold coerceTable
    rw [colOk (fun r => r.active) (hcell _ (by intro r h; simp [recordOk] at h; simp [h]))]
    rw [colOk (fun r => r.died) (hcell _ (by intro r h; simp [recordOk] at h; simp [h]))]
    rw [colOk (fun r => r.recovered) (hcell _ (by intro r h; simp [recordOk] at h; simp [h]))]
    rw [colOk (fun r => r.total) (hcell _ (by intro r h; simp [recordOk] at h; simp [h]))]
    exact congrArg Except.ok (zipRecords_map covid)

theorem preprocess_ok_iff {γ : Type} (covid : List RawRecord) (map_df : List (BoundaryFeature γ))
    (rp : γ → Int × Int) (out : List (JoinedRecord γ)) :
    preprocess covid map_df rp = .ok out ↔
      ((∀ r ∈ normalizeNames covid, recordOk r = true)
       ∧ out = mergeLeft ((qcFilter map_df).map (mkQcRow rp))
           ((normalizeNames covid).map coerceRecordVal)) := by
  unfold preprocess
  cases h : coerceTable (normalizeNames covid) with
  | error e =>
    simp only []
    constructor
    · intro hx; exact absurd hx (by simp)
    · rintro ⟨hall, rfl⟩
      have := (coerceTable_ok_iff _ _).mpr ⟨hall, rfl⟩
      rw [h] at this; exact absurd this (by simp)
  | ok cs =>
    have hc := (coerceTable_ok_iff _ _).mp h
    simp only [Except.ok.injEq]
    constructor
    · intro hx; exact ⟨hc.1, by rw [← hx, hc.2]⟩
    · rintro ⟨hall, rfl⟩; rw [hc.2]

theorem mem_mergeLeft {γ : Type} {right : List CaseRecord} :
    ∀ {left : List (QcRow γ)} {j : JoinedRecord γ}, j ∈ mergeLeft left right →
    ∃ l ∈ left, j.barangay = l.barangay ∧
      ((right.filter (fun r => r.barangay == l.barangay) = [] ∧ j = unmatchedRow l)
       ∨ (∃ r ∈ right, r.barangay = l.barangay ∧ j = matchedRow l r)) := by
  intro left
  induction left with
  | nil => intro j hj; exact absurd hj (by simp [mergeLeft])
  | cons l ls ih =>
    intro j hj
    rw [mergeLeft, List.mem_append] at hj
    rcases hj with hj | hj
    · refine ⟨l, List.mem_cons_self _ _, ?_⟩
      rcases hf : right.filter (fun r => r.barangay == l.barangay) with - | ⟨m, ms⟩
      · rw [hf] at hj
        have hje : j = unmatchedRow l := by simpa using hj
        exact ⟨by rw [hje]; rfl, Or.inl ⟨hf, hje⟩⟩
      · rw [hf] at hj
        have hj' : j ∈ (m :: ms).map (matchedRow l) := hj
        rcases List.mem_map.mp hj' with ⟨r, hrm, hje⟩
        have hrf : r ∈ right.filter (fun r => r.barangay == l.barangay) := by
          rw [hf]; exact hrm
        have hrr := List.mem_filter.mp hrf
        refine ⟨by rw [← hje]; rfl, Or.inr ⟨r, hrr.1, ?_, hje.symm⟩⟩
        exact beq_iff_eq.mp hrr.2
    · rcases ih hj with ⟨l', hl', hrest⟩
      exact ⟨l', List.mem_cons_of_mem _ hl', hrest⟩

theorem mergeLeft_length {γ : Type} : ∀ (left : List (QcRow γ)) (right : List CaseRecord),
    (∀ l ∈ left, (right.filter (fun r => r.barangay == l.barangay)).length ≤ 1) →
    (mergeLeft left right).length = left.length := by
  intro left
  induction left with
  | nil => intro right _; rfl
  | cons l ls ih =>
    intro right h
    rw [mergeLeft, List.length_append]
    have htl := ih right (fun x hx => h x (List.mem_cons_of_mem _ hx))
    cases hf : right.filter (fun r => r.barangay == l.barangay) with
    | nil => simp [htl]; omega
    | cons m ms =>
      have hle := h l (List.mem_cons_self _ _)
      rw [hf] at hle
      have hms : ms = [] := by
        cases ms with
        | nil => rfl
        | cons _ _ => exact absurd hle (by simp)
      subst hms
      simp [htl]; omega

theorem length_filter_le_one {α : Type} (key : α → String) :
    ∀ (l : List α), (l.map key).Nodup →
    ∀ b, (l.filter (fun x => key x == b)).length ≤ 1 := by
  intro l
  induction l with
  | nil => intro _ b; simp
  | cons x xs ih =>
    intro hnd b
    rw [List.map_cons, List.nodup_cons] at hnd
    by_cases hx : key x == b
    · have hrest : xs.filter (fun y => key y == b) = [] := by
        rw [List.filter_eq_nil_iff]
        intro y hy hyb
        have : key y = key x := by
          rw [beq_iff_eq.mp hyb, beq_iff_eq.mp hx]
        exact hnd.1 (this ▸ List.mem_map_of_mem key hy)
      simp [List.filter_cons, hx, hrest]
    · have := ih hnd.2 b
      simpa [List.filter_cons, hx] using this

theorem map_barangay_coerce (covid : List RawRecord) :
    (((normalizeNames covid).map coerceRecordVal).map (fun r => r.barangay))
      = covid.map (fun r => applyRep r.barangay) := by
  simp only [normalizeNames, List.map_map]
  rfl

/-! ## Claims C1, C2, C3, C4, C6 about `preprocess` -/

/-- Claim C1 counterexample: with a boundary set of one matching subdivision
`A` and a raw table containing the subdivision `A` twice, `preprocess`
returns two rows although only one boundary subdivision passes the filter —
the left join duplicates the boundary row once per matching case record, so
the output row count is not independent of duplicate input rows. -/
theorem preprocess_rowcount_cex :
    (preprocess
        [⟨"A", some "1", some "2", some "3", some "4"⟩,
         ⟨"A", some "1", some "2", some "3", some "4"⟩]
        [(⟨"Metropolitan Manila", "Quezon City", "A", ()⟩ : BoundaryFeature Unit)]
        (fun _ => (0, 0))).map List.length
      = Except.ok 2
    ∧ (qcFilter [(⟨"Metropolitan Manila", "Quezon City", "A", ()⟩ : BoundaryFeature Unit)]).length
      = 1 :=
  ⟨rfl, rfl⟩

/-- Claim C1 (amended): when the raw case records carry pairwise distinct
normalized subdivision names (in particular when any number of subdivisions
is missing from the input), the row count of the record set returned by
`preprocess` equals the number of boundary subdivisions passing the
region/city filter; a duplicated subdivision row, by contrast, adds an extra
output row. -/
theorem preprocess_rowcount {γ : Type} (covid : List RawRecord)
    (map_df : List (BoundaryFeature γ)) (rp : γ → Int × Int) (out : List (JoinedRecord γ))
    (hok : preprocess covid map_df rp = .ok out)
    (hnodup : (covid.map (fun r => applyRep r.barangay)).Nodup) :
    out.length = (qcFilter map_df).length := by
  rcases (preprocess_ok_iff covid map_df rp out).mp hok with ⟨-, rfl⟩
  have hkeys : (((normalizeNames covid).map coerceRecordVal).map
      (fun r : CaseRecord => r.barangay)).Nodup := by
    rw [map_barangay_coerce]; exact hnodup
  have hlen := mergeLeft_length ((qcFilter map_df).map (mkQcRow rp))
      ((normalizeNames covid).map coerceRecordVal)
      (fun l _ => length_filter_le_one (fun r : CaseRecord => r.barangay) _ hkeys l.barangay)
  rw [hlen, List.length_map]

/-- Claim C1 witness: a singleton input over a singleton boundary set. -/
theorem preprocess_rowcount_witness :
    ([(⟨"Metropolitan Manila", "Quezon City", "A", (), (0, 0), "A",
        some 1, some 2, some 3, some 4⟩ : JoinedRecord Unit)]).length
      = (qcFilter [(⟨"Metropolitan Manila", "Quezon City", "A", ()⟩ : BoundaryFeature Unit)]).length :=
  preprocess_rowcount [⟨"A", some "1", some "2", some "3", some "4"⟩]
    [⟨"Metropolitan Manila", "Quezon City", "A", ()⟩] (fun _ => (0, 0)) _ rfl (by decide)

/-- Claim C2 counterexample: a raw record whose `Active` cell holds the
non-numeric token `abc` makes `preprocess` raise (model of
`pd.to_numeric(..., errors='raise')`), instead of converting the value to
zero. -/
theorem preprocess_coercion_cex :
    preprocess [⟨"A", some "abc", some "1", some "1", some "1"⟩]
        ([] : List (BoundaryFeature Unit)) (fun _ => (0, 0))
      = Except.error "Unable to parse string abc" :=
  rfl

/-- Claim C2 (amended): `preprocess` succeeds exactly when every present
count cell parses as a number — a non-numeric token raises an error rather
than being converted — while a missing (NaN) count cell is converted to zero
for that record by the coercion step. -/
theorem preprocess_coercion {γ : Type} (covid : List RawRecord)
    (map_df : List (BoundaryFeature γ)) (rp : γ → Int × Int) :
    ((∃ out, preprocess covid map_df rp = .ok out) ↔ ∀ r ∈ covid, recordOk r = true)
    ∧ (∀ r : RawRecord,
        (r.active = none → (coerceRecordVal r).active = 0)
        ∧ (r.died = none → (coerceRecordVal r).died = 0)
        ∧ (r.recovered = none → (coerceRecordVal r).recovered = 0)
        ∧ (r.total = none → (coerceRecordVal r).total = 0)) := by
  constructor
  · constructor
    · rintro ⟨out, hout⟩ r hr
      have hall := ((preprocess_ok_iff covid map_df rp out).mp hout).1
      have : recordOk { r with barangay := applyRep r.barangay } = true :=
        hall _ (List.mem_map_of_mem _ hr)
      simpa [recordOk] using this
    · intro hall
      refine ⟨_, (preprocess_ok_iff covid map_df rp _).mpr ⟨?_, rfl⟩⟩
      intro r hr
      rcases List.mem_map.mp hr with ⟨r0, hr0, rfl⟩
      simpa [recordOk] using hall r0 hr0
  · intro r
    refine ⟨?_, ?_, ?_, ?_⟩ <;> intro h <;> simp [coerceRecordVal, h, cellVal]

/-- Claim C3 counterexample: the boundary subdivision `A` is absent from the
day's case records, and its joined counts come out as missing (`none`, the
model of NaN), not as zero. -/
theorem preprocess_absent_zero_cex :
    (preprocess [⟨"B", some "1", some "2", some "3", some "4"⟩]
        [(⟨"Metropolitan Manila", "Quezon City", "A", ()⟩ : BoundaryFeature Unit)]
        (fun _ => (0, 0))).map (fun l => l.map (fun j => j.active))
      = Except.ok [none]
    ∧ (none : Option Nat) ≠ some 0 :=
  ⟨rfl, by decide⟩

/-- Claim C3 (amended): a boundary subdivision absent (by normalized name)
from the day's case records yields an output record whose four counts are
missing (NaN / `none`) — not numerically zero. -/
theorem preprocess_absent_missing {γ : Type} (covid : List RawRecord)
    (map_df : List (BoundaryFeature γ)) (rp : γ → Int × Int) (out : List (JoinedRecord γ))
    (hok : preprocess covid map_df rp = .ok out)
    (j : JoinedRecord γ) (hj : j ∈ out)
    (habs : ∀ r ∈ covid, applyRep r.barangay ≠ j.barangay) :
    j.active = none ∧ j.died = none ∧ j.recovered = none ∧ j.total = none := by
  rcases (preprocess_ok_iff covid map_df rp out).mp hok with ⟨-, rfl⟩
  rcases mem_mergeLeft hj with ⟨l, -, hbar, hcase⟩
  rcases hcase with ⟨-, rfl⟩ | ⟨r, hr, hrb, rfl⟩
  · exact ⟨rfl, rfl, rfl, rfl⟩
  · exfalso
    rcases List.mem_map.mp hr with ⟨r0, hr0, rfl⟩
    rcases List.mem_map.mp hr0 with ⟨r1, hr1, rfl⟩
    exact habs r1 hr1 hrb

/-- Claim C3 witness: subdivision `A` is unreported and its counts are all
missing in the joined output. -/
theorem preprocess_absent_missing_witness :
    (⟨"Metropolitan Manila", "Quezon City", "A", (), (0, 0), "A",
        none, none, none, none⟩ : JoinedRecord Unit).active = none
    ∧ (⟨"Metropolitan Manila", "Quezon City", "A", (), (0, 0), "A",
        none, none, none, none⟩ : JoinedRecord Unit).died = none
    ∧ (⟨"Metropolitan Manila", "Quezon City", "A", (), (0, 0), "A",
        none, none, none, none⟩ : JoinedRecord Unit).recovered = none
    ∧ (⟨"Metropolitan Manila", "Quezon City", "A", (), (0, 0), "A",
        none, none, none, none⟩ : JoinedRecord Unit).total = none :=
  preprocess_absent_missing [⟨"B", some "1", some "2", some "3", some "4"⟩]
    [⟨"Metropolitan Manila", "Quezon City", "A", ()⟩] (fun _ => (0, 0)) _ rfl _
    (by decide) (by decide)

/-- Claim C4: a raw case record whose normalized subdivision name matches no
name in the filtered, renamed boundary set is absent from the joined output
of `preprocess` — no output row carries its name (the record is silently
dropped by the left join). -/
theorem preprocess_drops_unmatched {γ : Type} (covid : List RawRecord)
    (map_df : List (BoundaryFeature γ)) (rp : γ → Int × Int) (out : List (JoinedRecord γ))
    (hok : preprocess covid map_df rp = .ok out)
    (r : RawRecord) (_hr : r ∈ covid)
    (hnom : ∀ f ∈ qcFilter map_df, qcRename f.name3 ≠ applyRep r.barangay) :
    ∀ j ∈ out, j.barangay ≠ applyRep r.barangay := by
  rcases (preprocess_ok_iff covid map_df rp out).mp hok with ⟨-, rfl⟩
  intro j hj
  rcases mem_mergeLeft hj with ⟨l, hl, hbar, -⟩
  rcases List.mem_map.mp hl with ⟨f, hf, rfl⟩
  rw [hbar]
  exact hnom f hf

/-- Claim C4 witness: the case record `B` matches no boundary subdivision and
the single output row does not carry its name. -/
theorem preprocess_drops_unmatched_witness :
    (⟨"Metropolitan Manila", "Quezon City", "A", (), (0, 0), "A",
        none, none, none, none⟩ : JoinedRecord Unit).barangay
      ≠ applyRep "B" :=
  preprocess_drops_unmatched [⟨"B", some "1", some "2", some "3", some "4"⟩]
    [⟨"Metropolitan Manila", "Quezon City", "A", ()⟩] (fun _ => (0, 0)) _ rfl
    ⟨"B", some "1", some "2", some "3", some "4"⟩ (by decide) (by decide) _
    (by decide)

/-- Claim C6 counterexample: a boundary dataset on which the exact-string
region/city filter yields zero rows does not make `preprocess` fail — it
returns an empty record set. -/
theorem preprocess_empty_filter_cex :
    qcFilter [(⟨"Region X", "Quezon City", "A", ()⟩ : BoundaryFeature Unit)] = []
    ∧ preprocess [⟨"A", some "1", some "2", some "3", some "4"⟩]
        [(⟨"Region X", "Quezon City", "A", ()⟩ : BoundaryFeature Unit)] (fun _ => (0, 0))
      = Except.ok [] :=
  ⟨rfl, rfl⟩

/-- Claim C6 (amended): when the region/city filter yields zero boundary
rows, `preprocess` does not fail for that reason: provided the numeric
coercion succeeds, it returns the empty record set. -/
theorem preprocess_empty_filter {γ : Type} (covid : List RawRecord)
    (map_df : List (BoundaryFeature γ)) (rp : γ → Int × Int)
    (hempty : qcFilter map_df = [])
    (hcoerce : ∀ r ∈ covid, recordOk r = true) :
    preprocess covid map_df rp = .ok [] := by
  refine (preprocess_ok_iff covid map_df rp []).mpr ⟨?_, ?_⟩
  · intro r hr
    rcases List.mem_map.mp hr with ⟨r0, hr0, rfl⟩
    simpa [recordOk] using hcoerce r0 hr0
  · rw [hempty]; rfl

/-- Claim C6 witness: a non-matching region leaves the filter empty and
`preprocess` returns the empty record set. -/
theorem preprocess_empty_filter_witness :
    preprocess [⟨"A", some "1", some "2", some "3", some "4"⟩]
        [(⟨"Region X", "Quezon City", "A", ()⟩ : BoundaryFeature Unit)] (fun _ => (0, 0))
      = Except.ok [] :=
  preprocess_empty_filter _ _ _ rfl (by decide)

/-! ## Claim C8: the alias table -/

theorem applyRep_eq_of_mem (a c : String) (h : (a, c) ∈ rep) : applyRep a = c := by
  fin_cases h <;> rfl

theorem applyRep_eq_self (s : String) (h : ∀ p ∈ rep, p.1 ≠ s) : applyRep s = s := by
  have : rep.lookup s = none := by
    have : ∀ (l : List (String × String)), (∀ p ∈ l, p.1 ≠ s) → l.lookup s = none := by
      intro l
      induction l with
      | nil => intro _; rfl
      | cons p ps ih =>
        intro hl
        have hps : (s == p.1) = false :=
          beq_eq_false_iff_ne.mpr (Ne.symm (hl p (List.mem_cons_self _ _)))
        rw [List.lookup]
        simp only [hps]
        exact ih (fun q hq => hl q (List.mem_cons_of_mem _ hq))
    exact this rep h
  rw [applyRep, this]

/-- Claim C8: for every raw record, if its subdivision name is a key of the
hardcoded alias table `rep` then the corresponding record in the normalized
case table (the `replace` step of `preprocess`) carries the canonical form,
and if its name is not a key of the table it is left unchanged. -/
theorem preprocess_alias_table (covid : List RawRecord) (r : RawRecord) (hr : r ∈ covid) :
    (∀ c, (r.barangay, c) ∈ rep → { r with barangay := c } ∈ normalizeNames covid)
    ∧ ((∀ p ∈ rep, p.1 ≠ r.barangay) → r ∈ normalizeNames covid) := by
  constructor
  · intro c hc
    have hmem : { r with barangay := applyRep r.barangay } ∈ normalizeNames covid :=
      List.mem_map_of_mem (fun x => { x with barangay := applyRep x.barangay }) hr
    rwa [applyRep_eq_of_mem _ _ hc] at hmem
  · intro hno
    have hmem : { r with barangay := applyRep r.barangay } ∈ normalizeNames covid :=
      List.mem_map_of_mem (fun x => { x with barangay := applyRep x.barangay }) hr
    rwa [applyRep_eq_self _ hno] at hmem

/-- Claim C8 witness: the alias `Siena` is rewritten to its canonical form
`Sienna`. -/
theorem preprocess_alias_table_witness :
    (⟨"Sienna", none, none, none, none⟩ : RawRecord)
      ∈ normalizeNames [⟨"Siena", none, none, none, none⟩] :=
  (preprocess_alias_table [⟨"Siena", none, none, none, none⟩]
    ⟨"Siena", none, none, none, none⟩ (by decide)).1 "Sienna" (by decide)

/-! ## The table extractor (`extract_table`) -/

/-- A pandas DataFrame, reduced to what the pipeline observes: column labels
and string-cell rows (a missing cell is modelled as a short row, whose
out-of-range lookup yields `none`). -/
structure DataFrame where
  cols : List String
  rows : List (List String)
deriving Repr, DecidableEq

/-- Python's `df.iloc[1:-1, :]` row slice: all rows except the first and the
last. -/
def ilocMid {α : Type} (rows : List α) : List α := (rows.drop 1).dropLast

/-- `df.columns = df.iloc[0, :].values`: reinterpret the first row as the
column header (the row itself is not removed by this step). -/
def setHeader (df : DataFrame) : DataFrame :=
  { cols := df.rows.headD [], rows := df.rows }

/-- The per-table body of the `for table in tables` loop: set the header from
row 0, then keep `iloc[1:-1]`. -/
def sliceTable (df : DataFrame) : DataFrame :=
  { cols := (setHeader df).cols, rows := ilocMid (setHeader df).rows }

/-- Column alignment of `pd.concat` (outer join): keep the accumulated labels
and append the labels not yet present, in order of first appearance. -/
def colsUnion (acc cs : List String) : List String :=
  acc ++ cs.filter (fun c => !(acc.contains c))

/-- Row concatenation of `pd.concat`: all sliced tables' rows in order. -/
def joinRows : List DataFrame → List (List String)
  | [] => []
  | d :: ds => d.rows ++ joinRows ds

/-- The `extract_table` function of `codes/utils.py`, taking the list of
tables `tabula.read_pdf` found (one or more per page): each table's first
row becomes its header, its last row is dropped, and `pd.concat` joins the
results — raising when there is nothing to concatenate. -/
def extract_table (tables : List DataFrame) : Except String DataFrame :=
  match tables.map sliceTable with
  | [] => .error "No objects to concatenate"
  | d :: ds =>
    .ok { cols := (d :: ds).foldl (fun acc x => colsUnion acc x.cols) [],
          rows := joinRows (d :: ds) }

theorem joinRows_length : ∀ (ds : List DataFrame),
    (joinRows ds).length = (ds.map (fun d => d.rows.length)).sum := by
  intro ds
  induction ds with
  | nil => rfl
  | cons d ds ih => simp [joinRows, ih]

theorem ilocMid_length {α : Type} (rows : List α) :
    (ilocMid rows).length = rows.length - 1 - 1 := by
  rw [ilocMid, List.length_dropLast, List.length_drop]

theorem colsUnion_nil_left (cs : List String) : colsUnion [] cs = cs := by
  rw [colsUnion]
  simp

theorem colsUnion_self (h0 : List String) : colsUnion h0 h0 = h0 := by
  rw [colsUnion]
  have hfil : h0.filter (fun c => !(h0.contains c)) = [] := by
    rw [List.filter_eq_nil_iff]
    intro c hc
    simp [hc]
  rw [hfil, List.append_nil]

theorem foldl_colsUnion_const : ∀ (ds : List DataFrame) (h0 : List String),
    (∀ d ∈ ds, d.cols = h0) →
    ds.foldl (fun acc x => colsUnion acc x.cols) h0 = h0 := by
  intro ds
  induction ds with
  | nil => intro h0 _; rfl
  | cons d ds ih =>
    intro h0 h
    rw [List.foldl_cons, h d (List.mem_cons_self _ _), colsUnion_self]
    exact ih h0 (fun x hx => h x (List.mem_cons_of_mem _ hx))

/-- Claim C5: for a non-empty list of extracted tables, each with at least a
header row and a footer row, `extract_table` drops exactly the first and the
last row of each table (2·N rows in total), concatenates the rest in
original order, and — when all tables share the same first row — reports
that row as the unified column header. -/
theorem extract_table_shape (tables : List DataFrame) (out : DataFrame)
    (hne : tables ≠ [])
    (hlen : ∀ t ∈ tables, 2 ≤ t.rows.length)
    (hok : extract_table tables = .ok out) :
    out.rows.length + 2 * tables.length = (tables.map (fun t => t.rows.length)).sum
    ∧ out.rows = joinRows (tables.map sliceTable)
    ∧ (∀ h0, (∀ t ∈ tables, t.rows.headD [] = h0) → out.cols = h0) := by
  rw [extract_table] at hok
  rcases hm : tables.map sliceTable with - | ⟨d, ds⟩
  · exact absurd (List.map_eq_nil_iff.mp hm) hne
  · rw [hm] at hok
    have hout : out = { cols := (d :: ds).foldl (fun acc x => colsUnion acc x.cols) [],
                        rows := joinRows (d :: ds) } := by
      simpa using hok.symm
    subst hout
    refine ⟨?_, rfl, ?_⟩
    · show (joinRows (d :: ds)).length + 2 * tables.length = _
      rw [← hm, joinRows_length, List.map_map]
      have hsum : ∀ (ts : List DataFrame), (∀ t ∈ ts, 2 ≤ t.rows.length) →
          (ts.map ((fun x => x.rows.length) ∘ sliceTable)).sum + 2 * ts.length
            = (ts.map (fun t => t.rows.length)).sum := by
        intro ts
        induction ts with
        | nil => intro _; rfl
        | cons t ts ih =>
          intro h
          have h2 := h t (List.mem_cons_self _ _)
          have htail := ih (fun x hx => h x (List.mem_cons_of_mem _ hx))
          simp only [List.map_cons, List.sum_cons, Function.comp_apply, List.length_cons]
          have hslice : (sliceTable t).rows.length = t.rows.length - 1 - 1 :=
            ilocMid_length t.rows
          rw [hslice]
          omega
      exact hsum tables hlen
    · intro h0 hall
      have hcols : ∀ x ∈ d :: ds, x.cols = h0 := by
        intro x hx
        rw [← hm] at hx
        rcases List.mem_map.mp hx with ⟨t, ht, rfl⟩
        exact hall t ht
      show (d :: ds).foldl (fun acc x => colsUnion acc x.cols) [] = h0
      rw [List.foldl_cons, colsUnion_nil_left, hcols d (List.mem_cons_self _ _)]
      exact foldl_colsUnion_const ds h0 (fun x hx => hcols x (List.mem_cons_of_mem _ hx))

/-- Claim C5 witness: one 3-row table (header, one data row, footer) yields
one data row, and 1 + 2·1 = 3. -/
theorem extract_table_shape_witness :
    (⟨["H1", "H2"], [["a", "b"]]⟩ : DataFrame).rows.length
        + 2 * ([(⟨["x"], [["H1", "H2"], ["a", "b"], ["T", "9"]]⟩ : DataFrame)]).length
      = (([(⟨["x"], [["H1", "H2"], ["a", "b"], ["T", "9"]]⟩ : DataFrame)]).map
          (fun t => t.rows.length)).sum :=
  (extract_table_shape [⟨["x"], [["H1", "H2"], ["a", "b"], ["T", "9"]]⟩]
      ⟨["H1", "H2"], [["a", "b"]]⟩ (by decide) (by decide) rfl).1

/-! ## String helpers used by the renderer and the batch driver -/

/-- Decimal digit character for a value below ten. -/
def digitChar (n : Nat) : Char :=
  match n with
  | 0 => '0' | 1 => '1' | 2 => '2' | 3 => '3' | 4 => '4'
  | 5 => '5' | 6 => '6' | 7 => '7' | 8 => '8' | 9 => '9'
  | _ => '?'

/-- Decimal digits of a natural number, most significant first; the fuel is
an upper bound on the recursion depth (`n` itself suffices). -/
def natDigits : Nat → Nat → List Char
  | 0, _ => []
  | fuel + 1, n =>
    if n < 10 then [digitChar n]
    else natDigits fuel (n / 10) ++ [digitChar (n % 10)]

/-- Decimal rendering of a natural number, modelling Python's `{n}`
formatting of a non-negative int. -/
def natStr (n : Nat) : String := ⟨natDigits (n + 1) n⟩

/-- Numeric value of a digit string, used to invert `natStr`. -/
def digitsVal (l : List Char) : Nat :=
  l.foldl (fun a c => a * 10 + (c.toNat - 48)) 0

theorem digitsVal_append (xs : List Char) (c : Char) :
    digitsVal (xs ++ [c]) = digitsVal xs * 10 + (c.toNat - 48) := by
  rw [digitsVal, digitsVal, List.foldl_append]
  rfl

theorem digitsVal_natDigits : ∀ (fuel n : Nat), n < fuel →
    digitsVal (natDigits fuel n) = n := by
  intro fuel
  induction fuel with
  | zero => intro n h; exact absurd h (by omega)
  | succ fuel ih =>
    intro n h
    rw [natDigits]
    by_cases h10 : n < 10
    · rw [if_pos h10]
      interval_cases n <;> rfl
    · rw [if_neg h10]
      rw [digitsVal_append]
      have hdiv : n / 10 < fuel := by omega
      rw [ih (n / 10) hdiv]
      have hd : (digitChar (n % 10)).toNat - 48 = n % 10 := by
        have : n % 10 < 10 := Nat.mod_lt _ (by omega)
        interval_cases h : n % 10 <;> rfl
      rw [hd]
      omega

theorem natStr_injective (a b : Nat) (h : natStr a = natStr b) : a = b := by
  have hdata : natDigits (a + 1) a = natDigits (b + 1) b := congrArg String.data h
  have ha := digitsVal_natDigits (a + 1) a (by omega)
  have hb := digitsVal_natDigits (b + 1) b (by omega)
  rw [← ha, ← hb, hdata]

/-- Python's `str.replace(pat, rep)` for a non-empty pattern, on character
lists with fuel (the source string's length suffices since each step
consumes at least one character). -/
def replChars (pat rp : List Char) : Nat → List Char → List Char
  | 0, l => l
  | _ + 1, [] => []
  | fuel + 1, c :: cs =>
    if pat.isPrefixOf (c :: cs) then
      rp ++ replChars pat rp fuel (List.drop (pat.length - 1) cs)
    else
      c :: replChars pat rp fuel cs

/-- Python's `s.replace(pat, rep)` (non-empty `pat`): replace every
non-overlapping occurrence, scanning left to right. -/
def strReplace (s pat rp : String) : String :=
  if pat.data.isEmpty then s else ⟨replChars pat.data rp.data s.data.length s.data⟩

/-- Python's `s.split('/')[-1]`: everything after the last slash (the whole
string when there is none). -/
def lastComponent (s : String) : String :=
  ⟨(s.data.reverse.takeWhile (fun c => c ≠ '/')).reverse⟩

/-! ## The renderer boundary (`create_map`) and the batch driver -/

/-- One row of the daily-totals CSV, with `Date` already in the
`'%B %d %Y'` string form `create_map` compares against. -/
structure TotalsRow where
  date : String
  active : Nat
  deaths : Nat
  recoveries : Nat
  total : Nat
deriving Repr, DecidableEq

/-- Errors a pipeline stage can raise: Python's `FileNotFoundError`, which
the batch driver catches, versus everything else, which propagates. -/
inductive PyError
  | fileNotFound
  | other (msg : String)
deriving Repr, DecidableEq

/-- The `create_map` function of `codes/utils.py`, reduced to its observable
effects: derive the date string from the source file name, look up the day's
totals row (an empty lookup raises `IndexError` at `.values[0]`), look up
the `Commonwealth` row whose counts are read with `.values[0]` and `int()`
(absence raises `IndexError`, NaN counts raise on `int`), and on success
save the PNG named from the source file. -/
def create_map {γ : Type} (df : List (JoinedRecord γ)) (filename : String)
    (totals : List TotalsRow) (output_dir : String) : Except PyError String :=
  let base := strReplace (lastComponent filename) "-Cases.pdf" ""
  let dtStr := strReplace base "-" " "
  match totals.filter (fun t => t.date == dtStr) with
  | [] => .error (.other "IndexError")
  | _ :: _ =>
    match df.filter (fun j => j.barangay == "Commonwealth") with
    | [] => .error (.other "IndexError")
    | j :: _ =>
      if j.active.isSome && j.died.isSome && j.recovered.isSome && j.total.isSome then
        .ok (output_dir ++ "/" ++ base ++ ".png")
      else .error (.other "ValueError")

/-- Index of a column label, modelling pandas column lookup. -/
def colIndex (name : String) : List String → Option Nat
  | [] => none
  | c :: cs => if c == name then some 0 else (colIndex name cs).map (fun i => i + 1)

/-- The record view of the extracted DataFrame that `preprocess` accesses by
column label (`Barangay`, `Active`, `Died`, `Recovered`, `Total`); a missing
column raises pandas `KeyError`, a short row yields missing cells. -/
def toRecords (df : DataFrame) : Except String (List RawRecord) :=
  match colIndex "Barangay" df.cols, colIndex "Active" df.cols, colIndex "Died" df.cols,
      colIndex "Recovered" df.cols, colIndex "Total" df.cols with
  | some ib, some ia, some idd, some ir, some it =>
    .ok (df.rows.map (fun row =>
      ⟨(row[ib]?).getD "", row[ia]?, row[idd]?, row[ir]?, row[it]?⟩))
  | _, _, _, _, _ => .error "KeyError"

/-- One day of the batch body: read the file (absence is
`FileNotFoundError`, as raised by `tabula.read_pdf`), extract, preprocess,
render.  The filesystem is the map `fs` from file names to the parsed
tables of the files that exist. -/
def processDay {γ : Type} (fs : String → Option (List DataFrame))
    (map_df : List (BoundaryFeature γ)) (rp : γ → Int × Int) (totals : List TotalsRow)
    (output_dir : String) (fname : String) : Except PyError String :=
  match fs fname with
  | none => .error .fileNotFound
  | some tables =>
    match extract_table tables with
    | .error e => .error (.other e)
    | .ok df =>
      match toRecords df with
      | .error e => .error (.other e)
      | .ok recs =>
        match preprocess recs map_df rp with
        | .error e => .error (.other e)
        | .ok pre => create_map pre fname totals output_dir

/-- The expected downloaded file name the driver constructs, with its
explicit `day < 10` zero-padding branch and hardcoded year 2021. -/
def expectedBase (month : String) (day : Nat) : String :=
  if day < 10 then month ++ "-0" ++ natStr day ++ "-2021-Cases.pdf"
  else month ++ "-" ++ natStr day ++ "-2021-Cases.pdf"

/-- The full expected path `{data_dir}/{month}-…-2021-Cases.pdf`. -/
def expectedFile (data_dir month : String) (day : Nat) : String :=
  data_dir ++ "/" ++ expectedBase month day

/-- The inner `for day in range(1, n+1)` loop with its
`try … except FileNotFoundError: continue`: collect each day's saved output,
skip days whose file is missing, and propagate any other error. -/
def runFiles (proc : String → Except PyError String) : List String → Except PyError (List String)
  | [] => .ok []
  | f :: fl =>
    match proc f with
    | .ok s =>
      match runFiles proc fl with
      | .ok rest => .ok (s :: rest)
      | .error e => .error e
    | .error .fileNotFound => runFiles proc fl
    | .error (.other e) => .error (.other e)

/-- The `batch_process` function of `codes/utils.py`: for every
`(month, day-count)` range and every day in `[1, day-count]`, process the
expected file, skipping days whose file does not exist. -/
def batch_process {γ : Type} (dt : List (String × Nat)) (fs : String → Option (List DataFrame))
    (map_df : List (BoundaryFeature γ)) (rp : γ → Int × Int) (totals : List TotalsRow)
    (data_dir output_dir : String) : Except PyError (List String) :=
  match dt with
  | [] => .ok []
  | p :: rest =>
    match runFiles (processDay fs map_df rp totals output_dir)
        ((List.range' 1 p.2).map (expectedFile data_dir p.1)) with
    | .error e => .error e
    | .ok outs =>
      match batch_process rest fs map_df rp totals data_dir output_dir with
      | .error e => .error e
      | .ok outs2 => .ok (outs ++ outs2)

/-- The flattened list of expected file names over all ranges, in driver
order. -/
def allFiles (data_dir : String) : List (String × Nat) → List String
  | [] => []
  | p :: rest => (List.range' 1 p.2).map (expectedFile data_dir p.1) ++ allFiles data_dir rest

/-- The outputs of the days whose processing succeeds, in order. -/
def dayOutputs (proc : String → Except PyError String) (files : List String) : List String :=
  files.filterMap (fun f => (proc f).toOption)

/-- A fatal result: any error other than the caught `FileNotFoundError`. -/
def isFatal {α : Type} : Except PyError α → Bool
  | .error (.other _) => true
  | _ => false

theorem runFiles_ok (proc : String → Except PyError String) :
    ∀ (files : List String), (∀ f ∈ files, isFatal (proc f) = false) →
    runFiles proc files = .ok (dayOutputs proc files) := by
  intro files
  induction files with
  | nil => intro _; rfl
  | cons f fl ih =>
    intro h
    have hf := h f (List.mem_cons_self _ _)
    have htl := ih (fun x hx => h x (List.mem_cons_of_mem _ hx))
    rw [runFiles]
    cases hp : proc f with
    | ok s =>
      rw [htl]
      simp [dayOutputs, List.filterMap_cons, hp, Except.toOption]
    | error e =>
      cases e with
      | fileNotFound =>
        rw [htl]
        simp [dayOutputs, List.filterMap_cons, hp, Except.toOption]
      | other msg =>
        rw [hp] at hf
        exact absurd hf (by simp [isFatal])

theorem runFiles_append (proc : String → Except PyError String) :
    ∀ (xs ys : List String),
    runFiles proc (xs ++ ys) =
      (match runFiles proc xs with
       | .error e => .error e
       | .ok a =>
         match runFiles proc ys with
         | .error e => .error e
         | .ok b => .ok (a ++ b)) := by
  intro xs ys
  induction xs with
  | nil =>
    cases h : runFiles proc ys with
    | ok b => simp [runFiles, h]
    | error e => simp [runFiles, h]
  | cons f fl ih =>
    rw [List.cons_append, runFiles, runFiles]
    cases hp : proc f with
    | ok s =>
      rw [ih]
      cases h1 : runFiles proc fl with
      | error e => rfl
      | ok a =>
        cases h2 : runFiles proc ys with
        | error e => rfl
        | ok b => rfl
    | error e =>
      cases e with
      | fileNotFound => exact ih
      | other msg => rfl

theorem batch_process_eq {γ : Type} (dt : List (String × Nat))
    (fs : String → Option (List DataFrame)) (map_df : List (BoundaryFeature γ))
    (rp : γ → Int × Int) (totals : List TotalsRow) (data_dir output_dir : String) :
    batch_process dt fs map_df rp totals data_dir output_dir
      = runFiles (processDay fs map_df rp totals output_dir) (allFiles data_dir dt) := by
  induction dt with
  | nil => rfl
  | cons p rest ih =>
    rw [batch_process, allFiles, runFiles_append, ih]

theorem processDay_absent {γ : Type} (fs : String → Option (List DataFrame))
    (map_df : List (BoundaryFeature γ)) (rp : γ → Int × Int) (totals : List TotalsRow)
    (output_dir fname : String) (h : fs fname = none) :
    processDay fs map_df rp totals output_dir fname = .error .fileNotFound := by
  rw [processDay, h]

theorem processDay_present_ne_fnf {γ : Type} (fs : String → Option (List DataFrame))
    (map_df : List (BoundaryFeature γ)) (rp : γ → Int × Int) (totals : List TotalsRow)
    (output_dir fname : String) (tables : List DataFrame) (h : fs fname = some tables) :
    processDay fs map_df rp totals output_dir fname ≠ Except.error PyError.fileNotFound := by
  simp only [processDay, h]
  split
  · simp
  · split
    · simp
    · split
      · simp
      · simp only [create_map]
        split
        · simp
        · split
          · simp
          · split
            · simp
            · simp

/-- Claim C7: the batch driver walks every day in `[1, day-count]` of every
range; a day whose expected file does not exist is skipped silently (the
caught `FileNotFoundError`), so — as long as no present file fails for
another reason — the driver completes without raising, returning exactly the
rendered outputs of the days whose files exist, one per present day. -/
theorem batch_process_skips_missing {γ : Type} (dt : List (String × Nat))
    (fs : String → Option (List DataFrame)) (map_df : List (BoundaryFeature γ))
    (rp : γ → Int × Int) (totals : List TotalsRow) (data_dir output_dir : String)
    (h : ∀ f ∈ allFiles data_dir dt,
        isFatal (processDay fs map_df rp totals output_dir f) = false) :
    batch_process dt fs map_df rp totals data_dir output_dir
      = .ok (dayOutputs (processDay fs map_df rp totals output_dir) (allFiles data_dir dt))
    ∧ (dayOutputs (processDay fs map_df rp totals output_dir) (allFiles data_dir dt)).length
      = ((allFiles data_dir dt).filter (fun f => (fs f).isSome)).length := by
  constructor
  · rw [batch_process_eq]
    exact runFiles_ok _ _ h
  · have hpt : ∀ f ∈ allFiles data_dir dt,
        ((processDay fs map_df rp totals output_dir f).toOption.isSome) = (fs f).isSome := by
      intro f hfm
      cases hfs : fs f with
      | none =>
        rw [processDay_absent fs map_df rp totals output_dir f hfs]
        rfl
      | some tables =>
        cases hres : processDay fs map_df rp totals output_dir f with
        | ok s => rfl
        | error e =>
          cases e with
          | fileNotFound =>
            exact absurd hres (processDay_present_ne_fnf fs map_df rp totals output_dir f tables hfs)
          | other msg =>
            have := h f hfm
            rw [hres] at this
            exact absurd this (by simp [isFatal])
    have hgen : ∀ (files : List String),
        (∀ f ∈ files, ((processDay fs map_df rp totals output_dir f).toOption.isSome) = (fs f).isSome) →
        (dayOutputs (processDay fs map_df rp totals output_dir) files).length
          = (files.filter (fun f => (fs f).isSome)).length := by
      intro files
      induction files with
      | nil => intro _; rfl
      | cons f fl ih =>
        intro hp
        have hf := hp f (List.mem_cons_self _ _)
        have htl := ih (fun x hx => hp x (List.mem_cons_of_mem _ hx))
        rw [dayOutputs] at htl ⊢
        rw [List.filterMap_cons, List.filter_cons, ← hf]
        cases ho : (processDay fs map_df rp totals output_dir f).toOption with
        | none => simpa [ho] using htl
        | some s => simpa [ho] using htl
    exact hgen _ hpt

/-- Claim C7 witness: a two-day January range where day 1's file exists (one
well-formed table) and day 2's file is absent: the driver completes with
exactly day 1's rendered output. -/
theorem batch_process_skips_missing_witness :
    batch_process [("January", 2)]
        (fun f => if f == "output/January-01-2021-Cases.pdf" then
            some [⟨["c1", "c2", "c3", "c4", "c5"],
                   [["Barangay", "Active", "Died", "Recovered", "Total"],
                    ["Commonwealth", "1", "2", "3", "4"],
                    ["Total", "9", "9", "9", "9"]]⟩]
          else none)
        [(⟨"Metropolitan Manila", "Quezon City", "Commonwealth", ()⟩ : BoundaryFeature Unit)]
        (fun _ => (0, 0)) [⟨"January 01 2021", 1, 2, 3, 4⟩] "output" "maps"
      = Except.ok ["maps/January-01-2021.png"] :=
  (batch_process_skips_missing [("January", 2)]
      (fun f => if f == "output/January-01-2021-Cases.pdf" then
          some [⟨["c1", "c2", "c3", "c4", "c5"],
                 [["Barangay", "Active", "Died", "Recovered", "Total"],
                  ["Commonwealth", "1", "2", "3", "4"],
                  ["Total", "9", "9", "9", "9"]]⟩]
        else none)
      [⟨"Metropolitan Manila", "Quezon City", "Commonwealth", ()⟩]
      (fun _ => (0, 0)) [⟨"January 01 2021", 1, 2, 3, 4⟩] "output" "maps"
      (by decide)).1

/-! ## Calendar dates (Python `datetime.date` and `timedelta(days=1)`) -/

/-- Gregorian leap-year rule, as implemented by `datetime`. -/
def isLeap (y : Nat) : Bool :=
  ((y % 4 == 0) && (y % 100 != 0)) || (y % 400 == 0)

/-- Days in a month (1–12) of a leap or non-leap year. -/
def monthLength (leap : Bool) (m : Nat) : Nat :=
  match m with
  | 1 => 31 | 2 => if leap then 29 else 28 | 3 => 31 | 4 => 30 | 5 => 31 | 6 => 30
  | 7 => 31 | 8 => 31 | 9 => 30 | 10 => 31 | 11 => 30 | 12 => 31
  | _ => 0

/-- A calendar date, as `datetime.date(year, month, day)`. -/
structure Date where
  year : Nat
  month : Nat
  day : Nat
deriving Repr, DecidableEq

/-- The constraint `datetime.date` enforces on construction. -/
def Date.valid (dt : Date) : Prop :=
  1 ≤ dt.month ∧ dt.month ≤ 12 ∧ 1 ≤ dt.day ∧ dt.day ≤ monthLength (isLeap dt.year) dt.month

instance (dt : Date) : Decidable dt.valid := by
  unfold Date.valid
  infer_instance

/-- `date + timedelta(days=1)`. -/
def nextDate (dt : Date) : Date :=
  if dt.day < monthLength (isLeap dt.year) dt.month then ⟨dt.year, dt.month, dt.day + 1⟩
  else if dt.month < 12 then ⟨dt.year, dt.month + 1, 1⟩
  else ⟨dt.year + 1, 1, 1⟩

/-- `date <= date`, the lexicographic order Python uses. -/
def dateLe (a b : Date) : Prop :=
  a.year < b.year
  ∨ (a.year = b.year ∧ (a.month < b.month ∨ (a.month = b.month ∧ a.day ≤ b.day)))

instance (a b : Date) : Decidable (dateLe a b) := by
  unfold dateLe
  infer_instance

/-- Length of a year from its leap flag. -/
def daysInYearL (leap : Bool) : Nat := if leap then 366 else 365

/-- Days strictly before month `m` within a year. -/
def daysBeforeMonth (leap : Bool) : Nat → Nat
  | 0 => 0
  | m + 1 => daysBeforeMonth leap m + monthLength leap m

/-- Days strictly before year `y` (counted from year 0). -/
def daysBeforeYear : Nat → Nat
  | 0 => 0
  | y + 1 => daysBeforeYear y + daysInYearL (isLeap y)

/-- Rank of a date: days elapsed from an epoch; consecutive valid dates get
consecutive ranks. -/
def ordinal (dt : Date) : Nat :=
  daysBeforeYear dt.year + daysBeforeMonth (isLeap dt.year) dt.month + dt.day

theorem daysBeforeMonth_succ (l : Bool) (m : Nat) :
    daysBeforeMonth l (m + 1) = daysBeforeMonth l m + monthLength l m := rfl

theorem daysBeforeMonth_mono (l : Bool) {m m' : Nat} (h : m ≤ m') :
    daysBeforeMonth l m ≤ daysBeforeMonth l m' := by
  induction h with
  | refl => exact Nat.le_refl _
  | step _ ih => exact Nat.le_trans ih (Nat.le_add_right _ _)

theorem daysBeforeMonth_13 (l : Bool) : daysBeforeMonth l 13 = daysInYearL l := by
  cases l <;> rfl

theorem daysBeforeMonth_1 (l : Bool) : daysBeforeMonth l 1 = 0 := by
  cases l <;> rfl

theorem daysBeforeYear_succ (y : Nat) :
    daysBeforeYear (y + 1) = daysBeforeYear y + daysInYearL (isLeap y) := rfl

theorem daysBeforeYear_mono {y y' : Nat} (h : y ≤ y') :
    daysBeforeYear y ≤ daysBeforeYear y' := by
  induction h with
  | refl => exact Nat.le_refl _
  | step _ ih => exact Nat.le_trans ih (Nat.le_add_right _ _)

theorem inYear_le (dt : Date) (h : dt.valid) :
    daysBeforeMonth (isLeap dt.year) dt.month + dt.day ≤ daysInYearL (isLeap dt.year) := by
  obtain ⟨hm1, hm2, hd1, hd2⟩ := h
  have h2 : daysBeforeMonth (isLeap dt.year) (dt.month + 1)
      ≤ daysBeforeMonth (isLeap dt.year) 13 := daysBeforeMonth_mono _ (by omega)
  rw [daysBeforeMonth_succ, daysBeforeMonth_13] at h2
  omega

theorem monthLength_pos (l : Bool) (m : Nat) (h1 : 1 ≤ m) (h2 : m ≤ 12) :
    1 ≤ monthLength l m := by
  interval_cases m <;> cases l <;> decide

theorem ordinal_lt_of_lt (a b : Date) (ha : a.valid) (hb : b.valid)
    (h : a.year < b.year
      ∨ (a.year = b.year ∧ (a.month < b.month ∨ (a.month = b.month ∧ a.day < b.day)))) :
    ordinal a < ordinal b := by
  rcases h with hy | ⟨hy, hm | ⟨hm, hd⟩⟩
  · have h1 := inYear_le a ha
    have h2 : 1 ≤ b.day := hb.2.2.1
    have h3 : daysBeforeYear (a.year + 1) ≤ daysBeforeYear b.year := daysBeforeYear_mono hy
    rw [daysBeforeYear_succ] at h3
    have h4 : (0 : Nat) ≤ daysBeforeMonth (isLeap b.year) b.month := Nat.zero_le _
    unfold ordinal
    omega
  · unfold ordinal
    rw [hy]
    have h1 : a.day ≤ monthLength (isLeap b.year) a.month := by
      rw [← hy]; exact ha.2.2.2
    have h2 : daysBeforeMonth (isLeap b.year) (a.month + 1)
        ≤ daysBeforeMonth (isLeap b.year) b.month := daysBeforeMonth_mono _ (by omega)
    rw [daysBeforeMonth_succ] at h2
    have h3 : 1 ≤ b.day := hb.2.2.1
    omega
  · unfold ordinal
    rw [hy, hm]
    omega

theorem ordinal_le_of_dateLe (a b : Date) (ha : a.valid) (hb : b.valid) (h : dateLe a b) :
    ordinal a ≤ ordinal b := by
  rcases h with hy | ⟨hy, hm | ⟨hm, hd⟩⟩
  · exact Nat.le_of_lt (ordinal_lt_of_lt a b ha hb (Or.inl hy))
  · exact Nat.le_of_lt (ordinal_lt_of_lt a b ha hb (Or.inr ⟨hy, Or.inl hm⟩))
  · rcases Nat.lt_or_ge a.day b.day with hlt | hge
    · exact Nat.le_of_lt (ordinal_lt_of_lt a b ha hb (Or.inr ⟨hy, Or.inr ⟨hm, hlt⟩⟩))
    · have heq : a.day = b.day := by omega
      unfold ordinal
      rw [hy, hm, heq]

theorem dateLe_of_ordinal_le (a b : Date) (ha : a.valid) (hb : b.valid)
    (h : ordinal a ≤ ordinal b) : dateLe a b := by
  by_contra hc
  have hlt : b.year < a.year
      ∨ (b.year = a.year ∧ (b.month < a.month ∨ (b.month = a.month ∧ b.day < a.day))) := by
    unfold dateLe at hc
    omega
  exact absurd h (Nat.not_le.mpr (ordinal_lt_of_lt b a hb ha hlt))

theorem ordinal_injective_valid (a b : Date) (ha : a.valid) (hb : b.valid)
    (h : ordinal a = ordinal b) : a = b := by
  by_contra hne
  have hfields : ¬(a.year = b.year ∧ a.month = b.month ∧ a.day = b.day) := by
    intro hf
    rcases a with ⟨ay, am, ad⟩
    rcases b with ⟨by_, bm, bd⟩
    simp only at hf
    exact hne (by rw [hf.1, hf.2.1, hf.2.2])
  have htri : (a.year < b.year
        ∨ (a.year = b.year ∧ (a.month < b.month ∨ (a.month = b.month ∧ a.day < b.day))))
      ∨ (b.year < a.year
        ∨ (b.year = a.year ∧ (b.month < a.month ∨ (b.month = a.month ∧ b.day < a.day)))) := by
    omega
  rcases htri with ht | ht
  · exact absurd h (Nat.ne_of_lt (ordinal_lt_of_lt a b ha hb ht))
  · exact absurd h.symm (Nat.ne_of_lt (ordinal_lt_of_lt b a hb ha ht))

theorem ordinal_nextDate (dt : Date) (h : dt.valid) :
    ordinal (nextDate dt) = ordinal dt + 1 := by
  unfold nextDate
  by_cases h1 : dt.day < monthLength (isLeap dt.year) dt.month
  · rw [if_pos h1]
    simp only [ordinal]
    omega
  · rw [if_neg h1]
    have hday : dt.day = monthLength (isLeap dt.year) dt.month := by
      have := h.2.2.2; omega
    by_cases h2 : dt.month < 12
    · rw [if_pos h2]
      simp only [ordinal]
      rw [daysBeforeMonth_succ]
      omega
    · rw [if_neg h2]
      have hm12 : dt.month = 12 := by have := h.2.1; omega
      simp only [ordinal]
      rw [daysBeforeYear_succ, daysBeforeMonth_1]
      have h13 : daysBeforeMonth (isLeap dt.year) 12 + monthLength (isLeap dt.year) 12
          = daysInYearL (isLeap dt.year) := by
        rw [← daysBeforeMonth_succ]
        exact daysBeforeMonth_13 _
      rw [hm12] at hday
      rw [hm12]
      omega

theorem nextDate_valid (dt : Date) (h : dt.valid) : (nextDate dt).valid := by
  obtain ⟨hm1, hm2, hd1, hd2⟩ := h
  unfold nextDate
  by_cases h1 : dt.day < monthLength (isLeap dt.year) dt.month
  · rw [if_pos h1]
    exact ⟨hm1, hm2, (by omega : 1 ≤ dt.day + 1),
      (by omega : dt.day + 1 ≤ monthLength (isLeap dt.year) dt.month)⟩
  · rw [if_neg h1]
    by_cases h2 : dt.month < 12
    · rw [if_pos h2]
      exact ⟨(by omega : 1 ≤ dt.month + 1), (by omega : dt.month + 1 ≤ 12),
        (by omega : (1 : Nat) ≤ 1),
        monthLength_pos (isLeap dt.year) (dt.month + 1) (by omega) (by omega)⟩
    · rw [if_neg h2]
      exact ⟨(by omega : (1 : Nat) ≤ 1), (by omega : (1 : Nat) ≤ 12),
        (by omega : (1 : Nat) ≤ 1),
        monthLength_pos (isLeap (dt.year + 1)) 1 (by omega) (by omega)⟩

/-! ## The Fetcher (`download_data`) -/

/-- Python's `%B` full month name. -/
def monthName (m : Nat) : String :=
  match m with
  | 1 => "January" | 2 => "February" | 3 => "March" | 4 => "April"
  | 5 => "May" | 6 => "June" | 7 => "July" | 8 => "August"
  | 9 => "September" | 10 => "October" | 11 => "November" | 12 => "December"
  | _ => ""

/-- Python's `%d`: the day zero-padded to two digits. -/
def pad2 (n : Nat) : String := if n < 10 then "0" ++ natStr n else natStr n

/-- `start_date.strftime("%B-%d-%Y") + "-Cases.pdf"`, the file name the
Fetcher derives from a date. -/
def fileNameFor (dt : Date) : String :=
  monthName dt.month ++ "-" ++ pad2 dt.day ++ "-" ++ natStr dt.year ++ "-Cases.pdf"

/-- The `No data extracted on %B %d, %Y` report printed on a non-200
response. -/
def noDataMsg (dt : Date) : String :=
  "No data extracted on " ++ monthName dt.month ++ " " ++ pad2 dt.day ++ ", " ++ natStr dt.year

/-- Observable effect of one loop iteration of `download_data`: either the
response bytes are persisted under the date-derived file name, or nothing is
written and absence is reported. -/
inductive FetchEvent
  | wrote (d : Date) (filename : String)
  | noData (d : Date) (message : String)
deriving Repr, DecidableEq

/-- One iteration body: request the date's URL (the HTTP collaborator is the
`status` function) and either write `{directory}/{filename}` on a 200
response (`str(response) == '<Response [200]>'`) or print the report. -/
def fetchStep (directory : String) (status : Date → Nat) (d : Date) : FetchEvent :=
  if status d == 200 then .wrote d (directory ++ "/" ++ fileNameFor d)
  else .noData d (noDataMsg d)

/-- The `while start_date <= end_date` loop, driven by fuel; each iteration
advances by one day. -/
def fetchLoop (directory : String) (status : Date → Nat) :
    Nat → Date → Date → List FetchEvent
  | 0, _, _ => []
  | fuel + 1, cur, endD =>
    if dateLe cur endD then
      fetchStep directory status cur :: fetchLoop directory status fuel (nextDate cur) endD
    else []

/-- The `download_data` function of `codes/utils.py`: iterate over all dates
from `start` to `endD` inclusive (the fuel bound covers the whole range). -/
def download_data (start endD : Date) (directory : String) (status : Date → Nat) :
    List FetchEvent :=
  fetchLoop directory status (ordinal endD + 1 - ordinal start) start endD

theorem fetchStep_mem_fetchLoop (directory : String) (status : Date → Nat)
    (d endD : Date) (hd : d.valid) (hend : endD.valid) (h2 : dateLe d endD) :
    ∀ (fuel : Nat) (cur : Date), cur.valid → dateLe cur d →
      ordinal d + 1 ≤ ordinal cur + fuel →
      fetchStep directory status d ∈ fetchLoop directory status fuel cur endD := by
  intro fuel
  induction fuel with
  | zero =>
    intro cur hcur hle hfuel
    have := ordinal_le_of_dateLe cur d hcur hd hle
    omega
  | succ fuel ih =>
    intro cur hcur hle hfuel
    have hcd := ordinal_le_of_dateLe cur d hcur hd hle
    have hde := ordinal_le_of_dateLe d endD hd hend h2
    have hce : dateLe cur endD := dateLe_of_ordinal_le cur endD hcur hend (by omega)
    rw [fetchLoop, if_pos hce]
    by_cases heq : cur = d
    · subst heq
      exact List.mem_cons_self _ _
    · have hlt : ordinal cur < ordinal d := by
        rcases Nat.lt_or_ge (ordinal cur) (ordinal d) with hx | hx
        · exact hx
        · exact absurd (ordinal_injective_valid cur d hcur hd (by omega)) heq
      refine List.mem_cons_of_mem _ (ih (nextDate cur) (nextDate_valid cur hcur) ?_ ?_)
      · apply dateLe_of_ordinal_le _ _ (nextDate_valid cur hcur) hd
        rw [ordinal_nextDate cur hcur]
        omega
      · rw [ordinal_nextDate cur hcur]
        omega

theorem mem_fetchLoop_step (directory : String) (status : Date → Nat) :
    ∀ (fuel : Nat) (cur endD : Date) (e : FetchEvent),
      e ∈ fetchLoop directory status fuel cur endD →
      ∃ c, e = fetchStep directory status c := by
  intro fuel
  induction fuel with
  | zero => intro cur endD e he; exact absurd he (by simp [fetchLoop])
  | succ fuel ih =>
    intro cur endD e he
    rw [fetchLoop] at he
    by_cases hc : dateLe cur endD
    · rw [if_pos hc] at he
      rcases List.mem_cons.mp he with rfl | he'
      · exact ⟨cur, rfl⟩
      · exact ih _ _ _ he'
    · rw [if_neg hc] at he
      exact absurd he (by simp)

/-- Claim C9: for every date in the requested inclusive range, the Fetcher
either (when the HTTP response is a 200) writes a file whose name derives
deterministically from the date, or (otherwise) writes no file at all for
that date and reports that no data was available. -/
theorem download_data_spec (start endD d : Date) (directory : String) (status : Date → Nat)
    (hs : start.valid) (he : endD.valid) (hd : d.valid)
    (h1 : dateLe start d) (h2 : dateLe d endD) :
    (status d = 200 →
      FetchEvent.wrote d (directory ++ "/" ++ fileNameFor d)
        ∈ download_data start endD directory status)
    ∧ (status d ≠ 200 →
      (FetchEvent.noData d (noDataMsg d) ∈ download_data start endD directory status
       ∧ ∀ f, FetchEvent.wrote d f ∉ download_data start endD directory status)) := by
  have hmem : fetchStep directory status d ∈ download_data start endD directory status := by
    unfold download_data
    apply fetchStep_mem_fetchLoop directory status d endD hd he h2 _ start hs h1
    have hsd := ordinal_le_of_dateLe start d hs hd h1
    have hde := ordinal_le_of_dateLe d endD hd he h2
    omega
  constructor
  · intro hst
    have hstep : fetchStep directory status d
        = .wrote d (directory ++ "/" ++ fileNameFor d) := by
      rw [fetchStep, if_pos (by simp [hst])]
    rw [← hstep]
    exact hmem
  · intro hst
    have hbeq : (status d == 200) = false := beq_eq_false_iff_ne.mpr hst
    have hstep : fetchStep directory status d = .noData d (noDataMsg d) := by
      rw [fetchStep]
      simp [hbeq]
    constructor
    · rw [← hstep]
      exact hmem
    · intro f hf
      rcases mem_fetchLoop_step directory status _ _ _ _ hf with ⟨c, hc⟩
      rw [fetchStep] at hc
      by_cases hcs : (status c == 200) = true
      · rw [if_pos hcs] at hc
        have hcd : c = d := by
          cases hc
          rfl
        rw [hcd] at hcs
        rw [beq_iff_eq.mp hcs] at hst
        exact hst rfl
      · rw [if_neg hcs] at hc
        cases hc

/-- Claim C9 witness: a two-day range with an always-200 collaborator — the
first day's write event, named from the date, appears in the trace. -/
theorem download_data_spec_witness :
    FetchEvent.wrote ⟨1, 1, 1⟩ ("output" ++ "/" ++ fileNameFor ⟨1, 1, 1⟩)
      ∈ download_data ⟨1, 1, 1⟩ ⟨1, 1, 2⟩ "output" (fun _ => 200) :=
  (download_data_spec ⟨1, 1, 1⟩ ⟨1, 1, 2⟩ ⟨1, 1, 1⟩ "output" (fun _ => 200)
      (by decide) (by decide) (by decide) (by decide) (by decide)).1 rfl

/-! ## Claim C10: driver's expected name versus Fetcher's written name -/

theorem str_append_cancel_left (a b c : String) : (a ++ b = a ++ c) ↔ b = c := by
  constructor
  · intro h
    have hdata := congrArg String.data h
    rw [String.data_append, String.data_append] at hdata
    exact String.ext (List.append_cancel_left hdata)
  · intro h
    rw [h]

theorem str_append_cancel_right (a b c : String) : (a ++ c = b ++ c) ↔ a = b := by
  constructor
  · intro h
    have hdata := congrArg String.data h
    rw [String.data_append, String.data_append] at hdata
    exact String.ext (List.append_cancel_right hdata)
  · intro h
    rw [h]

theorem str_append_assoc (a b c : String) : a ++ b ++ c = a ++ (b ++ c) := by
  apply String.ext
  rw [String.data_append, String.data_append, String.data_append, String.data_append,
    List.append_assoc]

theorem natStr_2021 : natStr 2021 = "2021" := rfl

/-- Claim C10: for a (month-name, day) pair and the calendar date carrying
that month and day, the batch driver's expected file name (which hardcodes
the year 2021 and replicates the `%d` zero padding with its `day < 10`
branch) coincides with the base name the Fetcher writes for the date exactly
when the date's year is 2021. -/
theorem expectedBase_eq_fileNameFor_iff (month : String) (day : Nat) (dt : Date)
    (hm : monthName dt.month = month) (hd : dt.day = day) :
    (expectedBase month day = fileNameFor dt) ↔ dt.year = 2021 := by
  subst hm
  subst hd
  rw [expectedBase, fileNameFor, pad2]
  by_cases hlt : dt.day < 10
  · rw [if_pos hlt, if_pos hlt]
    rw [show ("-0" : String) = "-" ++ "0" from rfl]
    simp only [str_append_assoc]
    rw [str_append_cancel_left, str_append_cancel_left, str_append_cancel_left,
      str_append_cancel_left]
    rw [show ("-2021-Cases.pdf" : String) = "-" ++ ("2021" ++ "-Cases.pdf") from rfl]
    rw [str_append_cancel_left, str_append_cancel_right]
    constructor
    · intro h
      exact natStr_injective dt.year 2021 (h.symm.trans natStr_2021.symm)
    · intro h
      rw [h, natStr_2021]
  · rw [if_neg hlt, if_neg hlt]
    simp only [str_append_assoc]
    rw [str_append_cancel_left, str_append_cancel_left, str_append_cancel_left]
    rw [show ("-2021-Cases.pdf" : String) = "-" ++ ("2021" ++ "-Cases.pdf") from rfl]
    rw [str_append_cancel_left, str_append_cancel_right]
    constructor
    · intro h
      exact natStr_injective dt.year 2021 (h.symm.trans natStr_2021.symm)
    · intro h
      rw [h, natStr_2021]

/-- Claim C10 witness: January 5, 2021 — the names coincide and the year is
2021. -/
theorem expectedBase_eq_fileNameFor_iff_witness :
    (expectedBase "January" 5 = fileNameFor ⟨2021, 1, 5⟩)
      ↔ (⟨2021, 1, 5⟩ : Date).year = 2021 :=
  expectedBase_eq_fileNameFor_iff "January" 5 ⟨2021, 1, 5⟩ rfl rfl

end QC
